import Mathlib

/-!
Shallow embedding of the task-tracking server (server.ts, refactored
`TaskService` revision) of the deno-shoelace-htmx repository, together
with proofs about the claims of its specification.

Strings are modelled as `List Char` (`Str`); the JavaScript `Map` that
backs the task store is modelled as an association list with JS `Map`
semantics (`set` replaces in place, `delete` removes, `values` in
insertion order); `Date` values are modelled by their millisecond
timestamps (`Nat`); thrown validation errors are modelled with `Except`,
every operation returning the resulting service state explicitly.
-/

namespace Srv

abbrev Str := List Char

/-- Coerce a Lean string literal to the `List Char` string model. -/
def strL (s : String) : Str := s.data

/-- Model of the JavaScript whitespace class used by `String.prototype.trim`
(ASCII whitespace, NBSP, line/paragraph separators, BOM). -/
def isWsChar (c : Char) : Bool :=
  c.toNat = 9 || c.toNat = 10 || c.toNat = 11 || c.toNat = 12 || c.toNat = 13 ||
  c.toNat = 32 || c.toNat = 160 || c.toNat = 0x2028 || c.toNat = 0x2029 || c.toNat = 0xFEFF

/-- Model of `String.prototype.trim`: drop whitespace from both ends. -/
def trimStr (s : Str) : Str :=
  ((s.dropWhile isWsChar).reverse.dropWhile isWsChar).reverse

/-- Decimal digit character, as produced by `Number.prototype.toString`. -/
def digitChar (n : Nat) : Char := Char.ofNat (48 + n)

/-- Model of `Number.prototype.toString` on a non-negative integer:
decimal digit string. -/
def natToStr (n : Nat) : Str :=
  if h : n < 10 then [digitChar n]
  else natToStr (n / 10) ++ [digitChar (n % 10)]
decreasing_by
  exact Nat.div_lt_self (by omega) (by omega)

-- Task data model (server.ts `Task`); `priority` is a runtime string in JS,
-- validated against `TASK_PRIORITIES`.
structure Task where
  id : Str
  title : Str
  description : Str
  priority : Str
  completed : Bool
  createdAt : Nat
deriving Repr, DecidableEq

/-- server.ts `TASK_PRIORITIES`. -/
def TASK_PRIORITIES : List Str := [strL "low", strL "medium", strL "high"]

-- JS `Map<TaskId, Task>` model: association list, insertion order kept.

/-- Model of `Map.prototype.get`. -/
def storeGet (m : List (Str × Task)) (k : Str) : Option Task :=
  (m.find? (fun p => decide (p.1 = k))).map (fun p => p.2)

/-- Model of `Map.prototype.has`. -/
def storeHas (m : List (Str × Task)) (k : Str) : Bool :=
  m.any (fun p => decide (p.1 = k))

/-- Model of `Map.prototype.set`: replace in place when the key exists,
append otherwise. -/
def storeSet (m : List (Str × Task)) (k : Str) (v : Task) : List (Str × Task) :=
  if storeHas m k then m.map (fun p => if p.1 = k then (k, v) else p)
  else m ++ [(k, v)]

/-- Model of `Map.prototype.delete` (the removal part). -/
def storeDelete (m : List (Str × Task)) (k : Str) : List (Str × Task) :=
  m.filter (fun p => decide (p.1 ≠ k))

/-- Keys of the store, in insertion order. -/
def storeKeys (m : List (Str × Task)) : List Str := m.map (fun p => p.1)

/-- Values of the store, in insertion order (`Map.prototype.values`). -/
def storeValues (m : List (Str × Task)) : List Task := m.map (fun p => p.2)

-- `TaskService` state: the private `taskStore` map and the `nextId` counter.
structure ServiceState where
  taskStore : List (Str × Task)
  nextId : Nat
deriving Repr, DecidableEq

structure CreateData where
  title : Str
  description : Str
  priority : Str
deriving Repr, DecidableEq

structure UpdateData where
  title : Option Str
  description : Option Str
  priority : Option Str
deriving Repr, DecidableEq

def titleRequiredMsg : Str := strL "Invalid task data: Title is required and cannot be empty."
def priorityMsg : Str := strL "Invalid task data: Priority must be one of low, medium, high."
def titleEmptyMsg : Str := strL "Invalid task data: Title cannot be empty."

/-- Model of `TaskService.createTask`.  `id`, `completed`, `createdAt` are the
optional seeding parameters; `now` is the clock value used for `new Date()`.
`id || (this.nextId++).toString()` treats the empty string as falsy. -/
def createTask (st : ServiceState) (data : CreateData) (id : Option Str)
    (completed : Option Bool) (createdAt : Option Nat) (now : Nat) :
    Except Str Task × ServiceState :=
  if data.title = [] ∨ trimStr data.title = [] then
    (Except.error titleRequiredMsg, st)
  else if data.priority ∉ TASK_PRIORITIES then
    (Except.error priorityMsg, st)
  else
    let idCounter : Str × Nat := (natToStr st.nextId, st.nextId + 1)
    let chosen : Str × Nat :=
      match id with
      | some s => if s = [] then idCounter else (s, st.nextId)
      | none => idCounter
    let task : Task :=
      { id := chosen.1
        title := trimStr data.title
        description := data.description
        priority := data.priority
        completed := completed.getD false
        createdAt := createdAt.getD now }
    (Except.ok task,
      { taskStore := storeSet st.taskStore chosen.1 task, nextId := chosen.2 })

/-- Model of `TaskService.updateTask`: absent id yields `undefined` (here
`Except.ok none`); validation failures throw before any write. -/
def updateTask (st : ServiceState) (id : Str) (data : UpdateData) :
    Except Str (Option Task) × ServiceState :=
  match storeGet st.taskStore id with
  | none => (Except.ok none, st)
  | some task =>
    let titleInvalid : Bool :=
      match data.title with
      | some t => decide (trimStr t = [])
      | none => false
    let priorityInvalid : Bool :=
      match data.priority with
      | some p => decide (p ∉ TASK_PRIORITIES)
      | none => false
    if titleInvalid then (Except.error titleEmptyMsg, st)
    else if priorityInvalid then (Except.error priorityMsg, st)
    else
      let updatedTask : Task :=
        { task with
          title := match data.title with | some t => trimStr t | none => task.title
          description := data.description.getD task.description
          priority := data.priority.getD task.priority }
      (Except.ok (some updatedTask),
        { st with taskStore := storeSet st.taskStore id updatedTask })

/-- Model of `TaskService.toggleTaskCompletion`. -/
def toggleTaskCompletion (st : ServiceState) (id : Str) :
    Option Task × ServiceState :=
  match storeGet st.taskStore id with
  | none => (none, st)
  | some task =>
    let updatedTask : Task := { task with completed := !task.completed }
    (some updatedTask,
      { st with taskStore := storeSet st.taskStore id updatedTask })

/-- Model of `TaskService.deleteTask`. -/
def deleteTask (st : ServiceState) (id : Str) : Bool × ServiceState :=
  (storeHas st.taskStore id, { st with taskStore := storeDelete st.taskStore id })

/-- Model of `TaskService.getAllTasks`: filter by the `status` string, then
sort by `createdAt` descending (JS stable sort with comparator
`(a, b) => b.createdAt.getTime() - a.createdAt.getTime()`). -/
def getAllTasks (st : ServiceState) (status : Option Str) : List Task :=
  ((storeValues st.taskStore).filter (fun task =>
      if status = some (strL "active") then !task.completed
      else if status = some (strL "completed") then task.completed
      else true)).mergeSort (fun a b => decide (b.createdAt ≤ a.createdAt))

def seedData1 : CreateData :=
  { title := strL "Complete the project setup"
    description := strL "Initial setup for the Shoelace and HTMX demo"
    priority := strL "medium" }

def seedData2 : CreateData :=
  { title := strL "Research Web Components"
    description := strL "Look into Shoelace and other component libraries"
    priority := strL "low" }

def seedData3 : CreateData :=
  { title := strL "Implement server endpoints"
    description := strL "Create the API for task management"
    priority := strL "high" }

/-- Model of the `TaskService` constructor with `seedInitialTasks`:
store starts empty, `nextId = 4`, then the three seed records are created
with explicit ids "1", "2", "3". -/
def initState (now : Nat) : ServiceState :=
  let st0 : ServiceState := { taskStore := [], nextId := 4 }
  let st1 := (createTask st0 seedData1 (some (strL "1")) (some false) (some now) now).2
  let st2 := (createTask st1 seedData2 (some (strL "2")) (some true) (some (now - 86400000)) now).2
  (createTask st2 seedData3 (some (strL "3")) (some false) (some now) now).2

/-- Modelled from the spec: `htmlEscape` is imported from `./html_utils.ts`,
which is not part of the sources; per the spec it escapes every
user-supplied string against HTML injection (angle brackets, quotes,
ampersands) by replacing each such character with its HTML entity. -/
def htmlEscape (s : Str) : Str :=
  s.flatMap fun c =>
    if c = '&' then strL "&amp;"
    else if c = '<' then strL "&lt;"
    else if c = '>' then strL "&gt;"
    else if c.toNat = 34 then strL "&quot;"
    else if c.toNat = 39 then strL "&#39;"
    else [c]

/-- Model of `taskToHtml` (server.ts): the task fragment template with every
interpolated user string passed through `htmlEscape`. -/
def taskToHtml (task : Task) : Str :=
  let taskClass := if task.completed then strL "task-complete" else strL ""
  let badgeVariant :=
    if task.priority = strL "high" then strL "danger"
    else if task.priority = strL "medium" then strL "primary"
    else strL "success"
  strL "\n    <div id=\"task-" ++ htmlEscape task.id ++
  strL "\" class=\"task-item\">\n      <div>\n        <sl-checkbox\n          " ++
  (if task.completed then strL "checked" else strL "") ++
  strL "\n          hx-put=\"/api/tasks/" ++ htmlEscape task.id ++
  strL "/toggle\"\n          hx-trigger=\"change\"\n          hx-swap=\"outerHTML\"\n          hx-target=\"#task-" ++
  htmlEscape task.id ++
  strL "\">\n          <span class=\"" ++ taskClass ++ strL "\">" ++ htmlEscape task.title ++
  strL "</span>\n        </sl-checkbox>\n        <div style=\"margin-left: 1.75rem; color: var(--sl-color-neutral-600); font-size: 0.875rem;\">\n          " ++
  htmlEscape task.description ++
  strL "\n        </div>\n      </div>\n      \n      <div>\n        <sl-badge variant=\"" ++
  badgeVariant ++ strL "\">" ++ htmlEscape task.priority ++
  strL "</sl-badge>\n        <sl-dropdown>\n          <sl-button slot=\"trigger\" size=\"small\" variant=\"neutral\" circle>\n            <sl-icon name=\"three-dots-vertical\"></sl-icon>\n          </sl-button>\n          <sl-menu>\n            <sl-menu-item hx-get=\"/api/tasks/" ++
  htmlEscape task.id ++ strL "/edit\" hx-target=\"#task-" ++ htmlEscape task.id ++
  strL "\" hx-swap=\"outerHTML\">\n              <sl-icon slot=\"prefix\" name=\"pencil\"></sl-icon>\n              Edit\n            </sl-menu-item>\n            <sl-menu-item hx-delete=\"/api/tasks/" ++
  htmlEscape task.id ++ strL "\" hx-target=\"#task-" ++ htmlEscape task.id ++
  strL "\" hx-swap=\"outerHTML\" hx-confirm=\"Are you sure you want to delete this task?\">\n              <sl-icon slot=\"prefix\" name=\"trash\"></sl-icon>\n              Delete\n            </sl-menu-item>\n          </sl-menu>\n        </sl-dropdown>\n      </div>\n    </div>\n  "

/-- Model of `taskEditFormHtml` (server.ts). -/
def taskEditFormHtml (task : Task) : Str :=
  strL "\n    <form class=\"task-form edit-task-form\"\n          hx-put=\"/api/tasks/" ++
  htmlEscape task.id ++ strL "\"\n          hx-target=\"#task-" ++ htmlEscape task.id ++
  strL "\"\n          hx-swap=\"outerHTML\">\n      \n      <sl-input name=\"title\" required placeholder=\"Task title\" value=\"" ++
  htmlEscape task.title ++
  strL "\"></sl-input>\n      \n      <sl-textarea name=\"description\" placeholder=\"Description\">" ++
  htmlEscape task.description ++
  strL "</sl-textarea>\n      \n      <sl-select name=\"priority\" placeholder=\"Select priority\" value=\"" ++
  htmlEscape task.priority ++
  strL "\">\n        <sl-option value=\"low\">Low</sl-option>\n        <sl-option value=\"medium\">Medium</sl-option>\n        <sl-option value=\"high\">High</sl-option>\n      </sl-select>\n      \n      <div class=\"form-actions\">\n        <sl-button \n          type=\"button\" \n          variant=\"neutral\"\n          hx-get=\"/api/tasks/" ++
  htmlEscape task.id ++ strL "\"\n          hx-target=\"#task-" ++ htmlEscape task.id ++
  strL "\"\n          hx-swap=\"outerHTML\">\n          Cancel\n        </sl-button>\n        <sl-button type=\"submit\" variant=\"primary\">Save</sl-button>\n      </div>\n    </form>\n  "

-- HTTP layer model.  A response is its status and an abstract body: an HTML
-- string, a JSON string, or no body.

inductive Body
  | html (content : Str)
  | json (content : Str)
  | none
deriving Repr, DecidableEq

structure Resp where
  status : Nat
  body : Body
deriving Repr, DecidableEq

/-- Model of `JSON.stringify` on a string value. -/
def jsonQuote (s : Str) : Str :=
  [Char.ofNat 34] ++
  (s.flatMap fun c =>
    if c.toNat = 34 then [Char.ofNat 92, Char.ofNat 34]
    else if c.toNat = 92 then [Char.ofNat 92, Char.ofNat 92]
    else [c]) ++
  [Char.ofNat 34]

/-- Model of `jsonErrorResponse` (server.ts): `JSON.stringify({ error: message })`
with `Content-Type: application/json`. -/
def jsonErrorResponse (message : Str) (status : Nat) : Resp :=
  { status := status
    body := Body.json (strL "\x7b\"error\":" ++ jsonQuote message ++ strL "\x7d") }

/-- Model of `htmlErrorResponse` (server.ts): an `sl-alert` fragment with the
escaped message, `Content-Type: text/html`. -/
def htmlErrorResponse (message : Str) (status : Nat) (variant : Str) : Resp :=
  { status := status
    body := Body.html
      (strL "\n    <sl-alert variant=\"" ++ variant ++
       strL "\" open closable>\n      <sl-icon slot=\"icon\" name=\"" ++
       (if variant = strL "danger" then strL "exclamation-octagon"
        else strL "exclamation-triangle") ++
       strL "\"></sl-icon>\n      " ++ htmlEscape message ++
       strL "\n    </sl-alert>\n  ") }

/-- Model of `String.prototype.split('/')`. -/
def splitSlash : Str → List Str
  | [] => [[]]
  | c :: rest =>
    if c = '/' then [] :: splitSlash rest
    else
      match splitSlash rest with
      | [] => [[c]]
      | h :: t => (c :: h) :: t

/-- Model of `getPathParams` (server.ts): for every pattern segment starting
with `:`, bind its name to the url segment at the same index. -/
def getPathParams (pattern : Str) (path : Str) : List (Str × Str) :=
  let patternSegments := splitSlash pattern
  let urlSegments := splitSlash path
  (List.range patternSegments.length).filterMap fun i =>
    let seg := patternSegments.getD i []
    if seg.head? = some (Char.ofNat 58) then
      some (seg.drop 1, urlSegments.getD i [])
    else Option.none

/-- The `id` parameter extracted by `getPathParams`. -/
def paramId (pattern : Str) (path : Str) : Str :=
  ((getPathParams pattern path).lookup (strL "id")).getD []

/-- JS regex `\w`: `[A-Za-z0-9_]`. -/
def isWordChar (c : Char) : Bool :=
  (65 ≤ c.toNat && c.toNat ≤ 90) || (97 ≤ c.toNat && c.toNat ≤ 122) ||
  (48 ≤ c.toNat && c.toNat ≤ 57) || c.toNat = 95

/-- Model of the test `path.match(/^\/api\/tasks\/\w+$/)`. -/
def matchTaskIdPath (p : Str) : Bool :=
  (strL "/api/tasks/").isPrefixOf p &&
  (decide (p.drop 11 ≠ []) && (p.drop 11).all isWordChar)

/-- Model of the tests `path.match(/^\/api\/tasks\/\w+\/edit$/)` and
`.../toggle$/`: the tail after `/api/tasks/` is a nonempty word token
followed by the literal suffix segment. -/
def matchTaskSubPath (lit : Str) (p : Str) : Bool :=
  (strL "/api/tasks/").isPrefixOf p &&
  (let r := p.drop 11
   let idPart := r.take (r.length - lit.length)
   lit.isSuffixOf r && (decide (idPart ≠ []) && idPart.all isWordChar))

-- Form-data model: `formData.get(name)?.toString()` per field, `none` when
-- the field is absent.  A whole-request parse failure is modelled by the
-- handler receiving `none` instead of a `Form`.
structure Form where
  title : Option Str
  description : Option Str
  priority : Option Str
deriving Repr, DecidableEq

def createFailedMsg : Str := strL "Failed to create task due to an unexpected error."
def updateFailedMsg : Str := strL "Failed to update task due to an unexpected error."
def taskNotFoundMsg : Str := strL "Task not found."
def deleteNotFoundMsg : Str := strL "Task not found or could not be deleted."
def apiNotFoundMsg : Str := strL "API Endpoint Not Found"
def validationMark : Str := strL "Invalid task data:"

/-- Model of `getTasksHandler` (server.ts). -/
def getTasksHandler (st : ServiceState) (status : Option Str) : Resp × ServiceState :=
  let filteredTasks := getAllTasks st status
  if filteredTasks.length = 0 then
    ({ status := 200
       body := Body.html (strL "\n      <sl-alert variant=\"neutral\" open>\n        <sl-icon slot=\"icon\" name=\"info-circle\"></sl-icon>\n        No tasks found. Add your first task above.\n      </sl-alert>\n    ") }, st)
  else
    ({ status := 200, body := Body.html (filteredTasks.map taskToHtml).flatten }, st)

/-- Model of `createTaskHandler` (server.ts). -/
def createTaskHandler (st : ServiceState) (form : Option Form) (now : Nat) :
    Resp × ServiceState :=
  match form with
  | Option.none => (htmlErrorResponse createFailedMsg 500 (strL "danger"), st)
  | some f =>
    let taskData : CreateData :=
      { title := f.title.getD []
        description := f.description.getD []
        priority :=
          match f.priority with
          | some p => if p = [] then strL "medium" else p
          | Option.none => strL "medium" }
    match createTask st taskData Option.none Option.none Option.none now with
    | (Except.ok newTask, st') =>
      ({ status := 200, body := Body.html (taskToHtml newTask) }, st')
    | (Except.error msg, st') =>
      if validationMark.isPrefixOf msg then
        (htmlErrorResponse msg 400 (strL "danger"), st')
      else (htmlErrorResponse createFailedMsg 500 (strL "danger"), st')

/-- Model of `TaskService.getTaskById`. -/
def getTaskById (st : ServiceState) (id : Str) : Option Task :=
  storeGet st.taskStore id

/-- Model of `getTaskByIdHandler` (server.ts). -/
def getTaskByIdHandler (st : ServiceState) (id : Str) : Resp × ServiceState :=
  match getTaskById st id with
  | Option.none => (htmlErrorResponse taskNotFoundMsg 404 (strL "danger"), st)
  | some task => ({ status := 200, body := Body.html (taskToHtml task) }, st)

/-- Model of `updateTaskHandler` (server.ts). -/
def updateTaskHandler (st : ServiceState) (id : Str) (form : Option Form) :
    Resp × ServiceState :=
  match form with
  | Option.none => (htmlErrorResponse updateFailedMsg 500 (strL "danger"), st)
  | some f =>
    let validTaskData : UpdateData :=
      { title := f.title, description := f.description, priority := f.priority }
    match updateTask st id validTaskData with
    | (Except.ok Option.none, st') =>
      (htmlErrorResponse taskNotFoundMsg 404 (strL "danger"), st')
    | (Except.ok (some updatedTask), st') =>
      ({ status := 200, body := Body.html (taskToHtml updatedTask) }, st')
    | (Except.error msg, st') =>
      if validationMark.isPrefixOf msg then
        (htmlErrorResponse msg 400 (strL "danger"), st')
      else (htmlErrorResponse updateFailedMsg 500 (strL "danger"), st')

/-- Model of `deleteTaskHandler` (server.ts). -/
def deleteTaskHandler (st : ServiceState) (id : Str) : Resp × ServiceState :=
  let r := deleteTask st id
  if r.1 then ({ status := 204, body := Body.none }, r.2)
  else (jsonErrorResponse deleteNotFoundMsg 404, r.2)

/-- Model of `getTaskEditFormHandler` (server.ts). -/
def getTaskEditFormHandler (st : ServiceState) (id : Str) : Resp × ServiceState :=
  match getTaskById st id with
  | Option.none => (htmlErrorResponse taskNotFoundMsg 404 (strL "danger"), st)
  | some task => ({ status := 200, body := Body.html (taskEditFormHtml task) }, st)

/-- Model of `toggleTaskHandler` (server.ts). -/
def toggleTaskHandler (st : ServiceState) (id : Str) : Resp × ServiceState :=
  match toggleTaskCompletion st id with
  | (Option.none, st') => (htmlErrorResponse taskNotFoundMsg 404 (strL "danger"), st')
  | (some updatedTask, st') =>
    ({ status := 200, body := Body.html (taskToHtml updatedTask) }, st')

/-- Model of `handleApiRequest` (server.ts): the fixed route table, evaluated
in source order; `status` is the `status` query parameter, `form` the parsed
form data (with `none` for a parse failure), `now` the request clock. -/
def handleApiRequest (st : ServiceState) (method : Str) (path : Str)
    (status : Option Str) (form : Option Form) (now : Nat) :
    Resp × ServiceState :=
  if path = strL "/api/tasks" ∧ method = strL "GET" then
    getTasksHandler st status
  else if path = strL "/api/tasks" ∧ method = strL "POST" then
    createTaskHandler st form now
  else if matchTaskIdPath path ∧ method = strL "GET" then
    getTaskByIdHandler st (paramId (strL "/api/tasks/:id") path)
  else if matchTaskIdPath path ∧ method = strL "PUT" then
    updateTaskHandler st (paramId (strL "/api/tasks/:id") path) form
  else if matchTaskIdPath path ∧ method = strL "DELETE" then
    deleteTaskHandler st (paramId (strL "/api/tasks/:id") path)
  else if matchTaskSubPath (strL "/edit") path ∧ method = strL "GET" then
    getTaskEditFormHandler st (paramId (strL "/api/tasks/:id/edit") path)
  else if matchTaskSubPath (strL "/toggle") path ∧ method = strL "PUT" then
    toggleTaskHandler st (paramId (strL "/api/tasks/:id/toggle") path)
  else (jsonErrorResponse apiNotFoundMsg 404, st)

/-- States reachable from the seeded service by create / update / toggle /
delete operations (create as invoked by the HTTP handler: no seeding
parameters). -/
inductive Reachable (now : Nat) : ServiceState → Prop
  | init : Reachable now (initState now)
  | create (st : ServiceState) (data : CreateData) (clock : Nat) :
      Reachable now st → Reachable now (createTask st data none none none clock).2
  | update (st : ServiceState) (id : Str) (data : UpdateData) :
      Reachable now st → Reachable now (updateTask st id data).2
  | toggle (st : ServiceState) (id : Str) :
      Reachable now st → Reachable now (toggleTaskCompletion st id).2
  | delete (st : ServiceState) (id : Str) :
      Reachable now st → Reachable now (deleteTask st id).2

/-- A concrete three-task store with distinct timestamps, for witnesses. -/
def demoState : ServiceState :=
  { taskStore := [
      (strL "1", { id := strL "1", title := strL "a", description := [],
                   priority := strL "low", completed := false, createdAt := 5 }),
      (strL "2", { id := strL "2", title := strL "b", description := [],
                   priority := strL "low", completed := true, createdAt := 9 }),
      (strL "3", { id := strL "3", title := strL "c", description := [],
                   priority := strL "low", completed := false, createdAt := 1 })]
    nextId := 4 }

/-- Decimal value of a digit string (proof tool for the id counter). -/
def parseDec (s : Str) : Nat := s.foldl (fun a c => a * 10 + (c.toNat - 48)) 0

-- The reachability invariant for C3 and C7.

def TitleOK (t : Task) : Prop := t.title ≠ [] ∧ trimStr t.title = t.title

def KeyOK (nid : Nat) (k : Str) : Prop :=
  k = strL "1" ∨ k = strL "2" ∨ k = strL "3" ∨ ∃ m, 4 ≤ m ∧ m < nid ∧ k = natToStr m

def Inv (st : ServiceState) : Prop :=
  (storeKeys st.taskStore).Nodup ∧ 4 ≤ st.nextId ∧
  (∀ k ∈ storeKeys st.taskStore, KeyOK st.nextId k) ∧
  (∀ p ∈ st.taskStore, TitleOK p.2)

/-- Safety of a chunk on the left of a concatenation: it contains no
occurrence of `<sc` and does not end with `<` or `<s`. -/
def ScSafe (l : Str) : Prop :=
  ¬ (strL "<sc") <:+: l ∧ ¬ (strL "<") <:+ l ∧ ¬ (strL "<s") <:+ l

instance (l : Str) : Decidable (ScSafe l) := by
  unfold ScSafe
  infer_instance

-- Lemmas about the JS `Map` model.

theorem find?_map_set_self (m : List (Str × Task)) (k : Str) (v : Task) :
    List.find? (fun p => decide (p.1 = k)) (m.map (fun p => if p.1 = k then (k, v) else p))
      = Option.map (fun _ => (k, v)) (List.find? (fun p => decide (p.1 = k)) m) := by
  induction m with
  | nil => rfl
  | cons p m ih =>
    rw [List.map_cons]
    by_cases hp : p.1 = k
    · rw [if_pos hp]
      rw [List.find?_cons_of_pos _ (by simp), List.find?_cons_of_pos _ (by simp [hp])]
      rfl
    · rw [if_neg hp]
      rw [List.find?_cons_of_neg _ (by simp [hp]), List.find?_cons_of_neg _ (by simp [hp])]
      exact ih

theorem find?_map_set_other (m : List (Str × Task)) (k k' : Str) (v : Task)
    (hne : k' ≠ k) :
    List.find? (fun p => decide (p.1 = k')) (m.map (fun p => if p.1 = k then (k, v) else p))
      = List.find? (fun p => decide (p.1 = k')) m := by
  induction m with
  | nil => rfl
  | cons p m ih =>
    rw [List.map_cons]
    by_cases hp : p.1 = k
    · have hp' : ¬ (p.1 = k') := by rw [hp]; exact fun hh => hne hh.symm
      rw [if_pos hp]
      rw [List.find?_cons_of_neg _ (by simp; exact fun hh => hne hh.symm),
          List.find?_cons_of_neg _ (by simp [hp'])]
      exact ih
    · by_cases hp' : p.1 = k'
      · rw [if_neg hp]
        rw [List.find?_cons_of_pos _ (by simp [hp']), List.find?_cons_of_pos _ (by simp [hp'])]
      · rw [if_neg hp]
        rw [List.find?_cons_of_neg _ (by simp [hp']), List.find?_cons_of_neg _ (by simp [hp'])]
        exact ih

theorem storeGet_set_self (m : List (Str × Task)) (k : Str) (v : Task) :
    storeGet (storeSet m k v) k = some v := by
  unfold storeSet
  by_cases h : storeHas m k
  · rw [if_pos h]
    simp only [storeGet, find?_map_set_self]
    obtain ⟨x, hx, hxk⟩ := List.any_eq_true.mp h
    have hsome : (List.find? (fun p => decide (p.1 = k)) m).isSome = true :=
      List.find?_isSome.mpr ⟨x, hx, hxk⟩
    cases hf : List.find? (fun p => decide (p.1 = k)) m with
    | none => rw [hf] at hsome; simp at hsome
    | some q => simp
  · rw [if_neg h]
    simp only [storeGet]
    rw [List.find?_append]
    have hnone : List.find? (fun p => decide (p.1 = k)) m = Option.none := by
      rw [List.find?_eq_none]
      intro p hp
      simp only [decide_eq_true_eq]
      intro hk
      exact h (List.any_eq_true.mpr ⟨p, hp, by simp [hk]⟩)
    rw [hnone]
    simp [List.find?]

theorem storeGet_set_other (m : List (Str × Task)) (k k' : Str) (v : Task)
    (hne : k' ≠ k) : storeGet (storeSet m k v) k' = storeGet m k' := by
  unfold storeSet
  by_cases h : storeHas m k
  · rw [if_pos h]
    simp only [storeGet, find?_map_set_other m k k' v hne]
  · rw [if_neg h]
    simp only [storeGet]
    rw [List.find?_append]
    cases hfind : List.find? (fun p => decide (p.1 = k')) m with
    | none =>
      rw [List.find?_cons_of_neg _ (by simp; exact fun hh => hne hh.symm)]
      simp [List.find?]
    | some p => simp

theorem storeGet_eq_none_iff (m : List (Str × Task)) (k : Str) :
    storeGet m k = Option.none ↔ storeHas m k = false := by
  simp only [storeGet, Option.map_eq_none', List.find?_eq_none, storeHas]
  rw [List.any_eq_false]

/-- C4: `toggleCompletion` is an involution: for an id present in the
repository it succeeds and flips the `completed` flag, and toggling twice
returns the task to its original record; for an absent id it returns the
not-found signal (`undefined`) and leaves the state unchanged. -/
theorem claim_c4_toggle_involution (st : ServiceState) (id : Str) :
    (∀ t, storeGet st.taskStore id = some t →
      (toggleTaskCompletion st id).1 = some { t with completed := !t.completed } ∧
      (toggleTaskCompletion (toggleTaskCompletion st id).2 id).1 = some t) ∧
    (storeGet st.taskStore id = Option.none →
      toggleTaskCompletion st id = (Option.none, st)) := by
  constructor
  · intro t ht
    have h1 : toggleTaskCompletion st id =
        (some { t with completed := !t.completed },
         { st with taskStore := storeSet st.taskStore id { t with completed := !t.completed } }) := by
      unfold toggleTaskCompletion
      rw [ht]
    constructor
    · rw [h1]
    · rw [h1]
      unfold toggleTaskCompletion
      rw [show storeGet (storeSet st.taskStore id { t with completed := !t.completed }) id
            = some { t with completed := !t.completed } from storeGet_set_self _ _ _]
      simp
  · intro ht
    unfold toggleTaskCompletion
    rw [ht]

/-- Witness for C4 at the seeded store and id "1". -/
theorem claim_c4_witness :
    (toggleTaskCompletion (toggleTaskCompletion (initState 0) (strL "1")).2 (strL "1")).1 =
      storeGet (initState 0).taskStore (strL "1") := by
  obtain ⟨t, ht⟩ : ∃ t, storeGet (initState 0).taskStore (strL "1") = some t := ⟨_, rfl⟩
  rw [ht, ((claim_c4_toggle_involution (initState 0) (strL "1")).1 t ht).2]


/-- C9: for an id present in the store, `toggleTaskCompletion` changes only
the `completed` field of that task — `id`, `title`, `description`,
`priority` and `createdAt` are unchanged in the replacement record, the
replacement is what the store now holds at that id, and every other key of
the store is unchanged. -/
theorem claim_c9_toggle_frame (st : ServiceState) (id : Str) (t : Task)
    (ht : storeGet st.taskStore id = some t) :
    ∃ u, (toggleTaskCompletion st id).1 = some u ∧
      u.id = t.id ∧ u.title = t.title ∧ u.description = t.description ∧
      u.priority = t.priority ∧ u.createdAt = t.createdAt ∧
      u.completed = !t.completed ∧
      storeGet (toggleTaskCompletion st id).2.taskStore id = some u ∧
      ∀ k, k ≠ id →
        storeGet (toggleTaskCompletion st id).2.taskStore k = storeGet st.taskStore k := by
  refine ⟨{ t with completed := !t.completed }, ?_, rfl, rfl, rfl, rfl, rfl, rfl, ?_, ?_⟩
  · unfold toggleTaskCompletion
    rw [ht]
  · unfold toggleTaskCompletion
    rw [ht]
    exact storeGet_set_self _ _ _
  · intro k hk
    unfold toggleTaskCompletion
    rw [ht]
    exact storeGet_set_other _ _ _ _ hk

/-- Witness for C9 at the seeded store and id "2". -/
theorem claim_c9_witness :
    ∃ u, (toggleTaskCompletion (initState 0) (strL "2")).1 = some u ∧
      u.id = strL "2" ∧ u.completed = false ∧
      storeGet (toggleTaskCompletion (initState 0) (strL "2")).2.taskStore (strL "1") =
        storeGet (initState 0).taskStore (strL "1") := by
  have ht : storeGet (initState 0).taskStore (strL "2") = some
      { id := strL "2", title := strL "Research Web Components",
        description := strL "Look into Shoelace and other component libraries",
        priority := strL "low", completed := true, createdAt := 0 - 86400000 } := by rfl
  obtain ⟨u, h1, h2, _, _, _, _, h7, _, h9⟩ := claim_c9_toggle_frame (initState 0) (strL "2") _ ht
  refine ⟨u, h1, ?_, ?_, h9 (strL "1") (by decide)⟩
  · rw [h2]
  · rw [h7]
    rfl

/-- C10: `updateTask` is atomic on validation failure: when the id is
present and the supplied partial fields violate a validation rule (title
present but empty after trimming, or priority present but not one of the
enumerated values), it signals the validation error and the service state
is exactly as it was. -/
theorem claim_c10_update_atomic (st : ServiceState) (id : Str) (data : UpdateData)
    (t : Task) (ht : storeGet st.taskStore id = some t)
    (hbad : (∃ ttl, data.title = some ttl ∧ trimStr ttl = []) ∨
            (∃ p, data.priority = some p ∧ p ∉ TASK_PRIORITIES)) :
    ∃ msg, updateTask st id data = (Except.error msg, st) ∧ validationMark <+: msg := by
  unfold updateTask
  rw [ht]
  rcases hbad with ⟨ttl, httl, htrim⟩ | ⟨p, hp, hmem⟩
  · refine ⟨titleEmptyMsg, ?_, by decide⟩
    rw [httl]
    simp only [htrim, decide_True]
    rfl
  · rcases hcase : data.title with _ | ttl
    · refine ⟨priorityMsg, ?_, by decide⟩
      rw [hp]
      simp only [hmem, decide_True]
      rfl
    · by_cases htrim : trimStr ttl = []
      · refine ⟨titleEmptyMsg, ?_, by decide⟩
        simp only [htrim, decide_True]
        rfl
      · refine ⟨priorityMsg, ?_, by decide⟩
        rw [hp]
        simp only [htrim, decide_False, hmem, decide_True]
        rfl

/-- Witness for C10: whitespace-only title update of seeded task "1". -/
theorem claim_c10_witness :
    ∃ msg, updateTask (initState 0) (strL "1")
        { title := some (strL "   "), description := Option.none, priority := Option.none } =
        (Except.error msg, initState 0) ∧ validationMark <+: msg := by
  obtain ⟨t, ht⟩ : ∃ t, storeGet (initState 0).taskStore (strL "1") = some t := ⟨_, rfl⟩
  exact claim_c10_update_atomic (initState 0) (strL "1") _ t ht
    (Or.inl ⟨strL "   ", rfl, by decide⟩)

theorem getAllTasks_none (st : ServiceState) :
    getAllTasks st Option.none =
      (storeValues st.taskStore).mergeSort (fun a b => decide (b.createdAt ≤ a.createdAt)) := by
  unfold getAllTasks
  have hfun : (fun task : Task =>
      if (Option.none : Option Str) = some (strL "active") then !task.completed
      else if (Option.none : Option Str) = some (strL "completed") then task.completed
      else true) = fun _ : Task => true := by
    funext task
    rw [if_neg (by simp), if_neg (by simp)]
  rw [hfun, List.filter_true]

theorem getAllTasks_completed (st : ServiceState) :
    getAllTasks st (some (strL "completed")) =
      ((storeValues st.taskStore).filter (fun task => task.completed)).mergeSort
        (fun a b => decide (b.createdAt ≤ a.createdAt)) := by
  unfold getAllTasks
  have hfun : (fun task : Task =>
      if some (strL "completed") = some (strL "active") then !task.completed
      else if some (strL "completed") = some (strL "completed") then task.completed
      else true) = fun task : Task => task.completed := by
    funext task
    rw [if_neg (by decide), if_pos rfl]
  rw [hfun]

theorem getAllTasks_active (st : ServiceState) :
    getAllTasks st (some (strL "active")) =
      ((storeValues st.taskStore).filter (fun task => !task.completed)).mergeSort
        (fun a b => decide (b.createdAt ≤ a.createdAt)) := by
  unfold getAllTasks
  have hfun : (fun task : Task =>
      if some (strL "active") = some (strL "active") then !task.completed
      else if some (strL "active") = some (strL "completed") then task.completed
      else true) = fun task : Task => !task.completed := by
    funext task
    rw [if_pos rfl]
  rw [hfun]

/-- C5: when all stored tasks have pairwise distinct `createdAt` timestamps,
the unfiltered list operation returns all stored tasks, in strictly
descending `createdAt` order. -/
theorem claim_c5_list_order (st : ServiceState)
    (hdist : (storeValues st.taskStore).Pairwise (fun a b => a.createdAt ≠ b.createdAt)) :
    (getAllTasks st Option.none).Perm (storeValues st.taskStore) ∧
    (getAllTasks st Option.none).Pairwise (fun a b => b.createdAt < a.createdAt) := by
  rw [getAllTasks_none]
  have hperm := List.mergeSort_perm (storeValues st.taskStore)
    (fun a b => decide (b.createdAt ≤ a.createdAt))
  refine ⟨hperm, ?_⟩
  have hsorted := @List.sorted_mergeSort Task
    (fun a b : Task => decide (b.createdAt ≤ a.createdAt))
    (fun a b c hab hbc => by
      simp only [decide_eq_true_eq] at hab hbc ⊢
      omega)
    (fun a b => by
      simp only [Bool.or_eq_true, decide_eq_true_eq]
      omega)
    (storeValues st.taskStore)
  have hne : (List.mergeSort (storeValues st.taskStore)
      (fun a b => decide (b.createdAt ≤ a.createdAt))).Pairwise
      (fun a b => a.createdAt ≠ b.createdAt) :=
    ((List.Perm.pairwise_iff (fun hxy => hxy.symm) hperm).mpr hdist)
  refine (hsorted.and hne).imp ?_
  intro a b hab
  rcases hab with ⟨hle, hne⟩
  simp only [decide_eq_true_eq] at hle
  omega

/-- Witness for C5 at the concrete store. -/
theorem claim_c5_witness :
    ((getAllTasks demoState Option.none).Perm (storeValues demoState.taskStore)) ∧
    ((getAllTasks demoState Option.none).Pairwise (fun a b => b.createdAt < a.createdAt)) :=
  claim_c5_list_order demoState (by decide)

/-- C6: the completed-filtered list and the active-filtered list are
disjoint, and together their ids form exactly the multiset of ids of the
unfiltered list. -/
theorem claim_c6_partition (st : ServiceState) :
    (∀ t, t ∈ getAllTasks st (some (strL "completed")) →
       t ∉ getAllTasks st (some (strL "active"))) ∧
    (((getAllTasks st (some (strL "completed")) ++ getAllTasks st (some (strL "active"))).map Task.id).Perm
      ((getAllTasks st Option.none).map Task.id)) := by
  constructor
  · intro t htc hta
    rw [getAllTasks_completed] at htc
    rw [getAllTasks_active] at hta
    rw [List.mem_mergeSort, List.mem_filter] at htc hta
    rcases htc with ⟨-, hc⟩
    rcases hta with ⟨-, ha⟩
    rw [hc] at ha
    exact absurd ha (by decide)
  · refine List.Perm.map Task.id ?_
    rw [getAllTasks_completed, getAllTasks_active, getAllTasks_none]
    have h1 := List.mergeSort_perm ((storeValues st.taskStore).filter (fun task => task.completed))
      (fun a b => decide (b.createdAt ≤ a.createdAt))
    have h2 := List.mergeSort_perm ((storeValues st.taskStore).filter (fun task => !task.completed))
      (fun a b => decide (b.createdAt ≤ a.createdAt))
    have h3 := List.mergeSort_perm (storeValues st.taskStore)
      (fun a b => decide (b.createdAt ≤ a.createdAt))
    exact ((h1.append h2).trans
      (List.filter_append_perm (fun task => task.completed) (storeValues st.taskStore))).trans
      h3.symm

/-- Witness for C6: the completed demo task is excluded from the active
list. -/
theorem claim_c6_witness :
    ({ id := strL "2", title := strL "b", description := [], priority := strL "low",
       completed := true, createdAt := 9 } : Task) ∉ getAllTasks demoState (some (strL "active")) :=
  (claim_c6_partition demoState).1 _ (by
    rw [getAllTasks_completed, List.mem_mergeSort]
    decide)

-- Decimal-string lemmas for the id counter.


theorem digitChar_toNat (k : Nat) (h : k < 10) : (digitChar k).toNat = 48 + k := by
  interval_cases k <;> rfl

theorem parseDec_append_digit (s : Str) (c : Char) :
    parseDec (s ++ [c]) = (parseDec s) * 10 + (c.toNat - 48) := by
  unfold parseDec
  rw [List.foldl_append]
  rfl

theorem parseDec_natToStr (n : Nat) : parseDec (natToStr n) = n := by
  induction n using Nat.strong_induction_on with
  | _ n ih =>
    rw [natToStr]
    by_cases h : n < 10
    · rw [dif_pos h]
      show parseDec [digitChar n] = n
      unfold parseDec
      simp only [List.foldl_cons, List.foldl_nil, Nat.zero_mul, Nat.zero_add]
      rw [digitChar_toNat n h]
      omega
    · rw [dif_neg h]
      rw [parseDec_append_digit]
      rw [ih (n / 10) (Nat.div_lt_self (by omega) (by omega))]
      rw [digitChar_toNat (n % 10) (Nat.mod_lt _ (by omega))]
      omega

theorem natToStr_injective {a b : Nat} (h : natToStr a = natToStr b) : a = b := by
  have := congrArg parseDec h
  rwa [parseDec_natToStr, parseDec_natToStr] at this

-- Trim lemmas.

theorem dropWhile_idem (p : Char → Bool) (l : Str) :
    List.dropWhile p (List.dropWhile p l) = List.dropWhile p l := by
  induction l with
  | nil => rfl
  | cons c l ih =>
    by_cases h : p c
    · simp [List.dropWhile_cons, h, ih]
    · simp [List.dropWhile_cons, h]

theorem head_dropWhile_false (p : Char → Bool) (l : Str) (c : Char) (r : Str)
    (h : List.dropWhile p l = c :: r) : p c = false := by
  induction l with
  | nil => exact absurd h (by simp)
  | cons a l ih =>
    rw [List.dropWhile_cons] at h
    by_cases ha : p a
    · exact ih (by rwa [if_pos ha] at h)
    · rw [if_neg ha] at h
      cases h
      exact Bool.eq_false_iff.mpr ha

theorem trimStr_idem (s : Str) : trimStr (trimStr s) = trimStr s := by
  unfold trimStr
  set u := List.dropWhile isWsChar s with hu
  set v := List.dropWhile isWsChar u.reverse with hv
  have hpre : v.reverse <+: u := by
    have hsuf : v <:+ u.reverse := hv ▸ List.dropWhile_suffix isWsChar
    have := List.reverse_prefix.mpr hsuf
    rwa [List.reverse_reverse] at this
  have step1 : List.dropWhile isWsChar v.reverse = v.reverse := by
    cases hvr : v.reverse with
    | nil => rfl
    | cons c r =>
      obtain ⟨t, ht⟩ := hpre
      rw [hvr] at ht
      have hc : isWsChar c = false := by
        apply head_dropWhile_false isWsChar s c (r ++ t)
        rw [← hu, ← ht]
        rfl
      rw [List.dropWhile_cons, hc]
      simp
  rw [step1, List.reverse_reverse]
  have step2 : List.dropWhile isWsChar v = v := by
    rw [hv]
    exact dropWhile_idem isWsChar u.reverse
  rw [step2]

theorem allWs_trim_nil (s : Str) (h : s.all isWsChar = true) : trimStr s = [] := by
  unfold trimStr
  have h1 : List.dropWhile isWsChar s = [] :=
    List.dropWhile_eq_nil_iff.mpr (fun x hx => by
      exact List.all_eq_true.mp h x hx)
  rw [h1]
  rfl

theorem trimmed_not_allWs (t : Str) (hne : t ≠ []) (ht : trimStr t = t) :
    t.all isWsChar = false := by
  cases hall : t.all isWsChar with
  | false => rfl
  | true => exact absurd (ht ▸ allWs_trim_nil t hall) hne


-- Store membership / key lemmas for the invariant proofs.

theorem storeHas_false_iff (m : List (Str × Task)) (k : Str) :
    storeHas m k = false ↔ k ∉ storeKeys m := by
  simp only [storeHas, List.any_eq_false, storeKeys, List.mem_map, decide_eq_true_eq]
  constructor
  · rintro h ⟨p, hp, hpk⟩
    exact h p hp hpk
  · intro h p hp hpk
    exact h ⟨p, hp, hpk⟩

theorem storeHas_of_get (m : List (Str × Task)) (k : Str) (t : Task)
    (h : storeGet m k = some t) : storeHas m k = true := by
  simp only [storeGet, Option.map_eq_some'] at h
  obtain ⟨p, hp, _⟩ := h
  have hpk := @List.find?_some _ (fun q : Str × Task => decide (q.1 = k)) p m hp
  exact List.any_eq_true.mpr ⟨p, List.mem_of_find?_eq_some hp, hpk⟩

theorem storeGet_mem (m : List (Str × Task)) (k : Str) (t : Task)
    (h : storeGet m k = some t) : ∃ p ∈ m, p.2 = t := by
  simp only [storeGet, Option.map_eq_some'] at h
  obtain ⟨p, hp, hpt⟩ := h
  exact ⟨p, List.mem_of_find?_eq_some hp, hpt⟩

theorem storeKeys_set_of_has (m : List (Str × Task)) (k : Str) (v : Task)
    (h : storeHas m k = true) : storeKeys (storeSet m k v) = storeKeys m := by
  unfold storeSet
  rw [if_pos h]
  unfold storeKeys
  rw [List.map_map]
  apply List.map_congr_left
  intro p _
  by_cases hp : p.1 = k
  · simp [hp]
  · simp [hp]

theorem storeKeys_set_of_not (m : List (Str × Task)) (k : Str) (v : Task)
    (h : storeHas m k = false) : storeKeys (storeSet m k v) = storeKeys m ++ [k] := by
  unfold storeSet
  rw [if_neg (by rw [h]; exact Bool.false_ne_true)]
  unfold storeKeys
  rw [List.map_append]
  rfl

theorem mem_storeSet (m : List (Str × Task)) (k : Str) (v : Task) (q : Str × Task)
    (h : q ∈ storeSet m k v) : q ∈ m ∨ q = (k, v) := by
  unfold storeSet at h
  by_cases hh : storeHas m k
  · rw [if_pos hh] at h
    obtain ⟨p, hp, hq⟩ := List.mem_map.mp h
    by_cases hpk : p.1 = k
    · right
      rw [← hq, if_pos hpk]
    · left
      rw [← hq, if_neg hpk]
      exact hp
  · rw [if_neg hh] at h
    rcases List.mem_append.mp h with h1 | h1
    · exact Or.inl h1
    · exact Or.inr (List.mem_singleton.mp h1)

theorem mem_storeDelete (m : List (Str × Task)) (k : Str) (q : Str × Task)
    (h : q ∈ storeDelete m k) : q ∈ m :=
  List.mem_of_mem_filter h

theorem storeKeys_delete_sublist (m : List (Str × Task)) (k : Str) :
    (storeKeys (storeDelete m k)).Sublist (storeKeys m) :=
  List.Sublist.map _ (List.filter_sublist m)

theorem keyOK_mono {n n' : Nat} (h : n ≤ n') {k : Str} (hk : KeyOK n k) : KeyOK n' k := by
  rcases hk with h1 | h1 | h1 | ⟨m, hm1, hm2, hm3⟩
  · exact Or.inl h1
  · exact Or.inr (Or.inl h1)
  · exact Or.inr (Or.inr (Or.inl h1))
  · exact Or.inr (Or.inr (Or.inr ⟨m, hm1, by omega, hm3⟩))

theorem keyOK_fresh {nid : Nat} (hnid : 4 ≤ nid) {k : Str} (hk : KeyOK nid k) :
    k ≠ natToStr nid := by
  rcases hk with h1 | h1 | h1 | ⟨m, _, hm2, hm3⟩ <;> intro heq
  · have : parseDec (natToStr nid) = parseDec (strL "1") := by rw [← h1, heq]
    rw [parseDec_natToStr] at this
    exact absurd this (by change _ ≠ 1; omega)
  · have : parseDec (natToStr nid) = parseDec (strL "2") := by rw [← h1, heq]
    rw [parseDec_natToStr] at this
    exact absurd this (by change _ ≠ 2; omega)
  · have : parseDec (natToStr nid) = parseDec (strL "3") := by rw [← h1, heq]
    rw [parseDec_natToStr] at this
    exact absurd this (by change _ ≠ 3; omega)
  · rw [hm3] at heq
    exact absurd (natToStr_injective heq) (by omega)

theorem initState_gen (now yd : Nat) :
    (createTask (createTask (createTask { taskStore := [], nextId := 4 } seedData1
        (some (strL "1")) (some false) (some now) now).2
      seedData2 (some (strL "2")) (some true) (some yd) now).2
      seedData3 (some (strL "3")) (some false) (some now) now).2 =
    { taskStore := [
        (strL "1", { id := strL "1", title := strL "Complete the project setup",
                     description := strL "Initial setup for the Shoelace and HTMX demo",
                     priority := strL "medium", completed := false, createdAt := now }),
        (strL "2", { id := strL "2", title := strL "Research Web Components",
                     description := strL "Look into Shoelace and other component libraries",
                     priority := strL "low", completed := true, createdAt := yd }),
        (strL "3", { id := strL "3", title := strL "Implement server endpoints",
                     description := strL "Create the API for task management",
                     priority := strL "high", completed := false, createdAt := now })]
      nextId := 4 } := rfl

theorem initState_eq (now : Nat) : initState now =
    { taskStore := [
        (strL "1", { id := strL "1", title := strL "Complete the project setup",
                     description := strL "Initial setup for the Shoelace and HTMX demo",
                     priority := strL "medium", completed := false, createdAt := now }),
        (strL "2", { id := strL "2", title := strL "Research Web Components",
                     description := strL "Look into Shoelace and other component libraries",
                     priority := strL "low", completed := true, createdAt := now - 86400000 }),
        (strL "3", { id := strL "3", title := strL "Implement server endpoints",
                     description := strL "Create the API for task management",
                     priority := strL "high", completed := false, createdAt := now })]
      nextId := 4 } :=
  initState_gen now (now - 86400000)

theorem inv_init (now : Nat) : Inv (initState now) := by
  rw [initState_eq]
  refine ⟨?_, Nat.le.refl, ?_, ?_⟩
  · show ([strL "1", strL "2", strL "3"] : List Str).Nodup
    decide
  · intro k hk
    replace hk : k = strL "1" ∨ k = strL "2" ∨ k = strL "3" ∨ False := by
      simpa [storeKeys] using hk
    rcases hk with h | h | h | h
    · exact Or.inl h
    · exact Or.inr (Or.inl h)
    · exact Or.inr (Or.inr (Or.inl h))
    · exact absurd h not_false
  · intro p hp
    simp only [List.mem_cons, List.not_mem_nil, or_false] at hp
    rcases hp with h | h | h <;> rw [h]
    · exact ⟨by show strL "Complete the project setup" ≠ []; decide,
             by show trimStr (strL "Complete the project setup") = strL "Complete the project setup"; decide⟩
    · exact ⟨by show strL "Research Web Components" ≠ []; decide,
             by show trimStr (strL "Research Web Components") = strL "Research Web Components"; decide⟩
    · exact ⟨by show strL "Implement server endpoints" ≠ []; decide,
             by show trimStr (strL "Implement server endpoints") = strL "Implement server endpoints"; decide⟩

theorem inv_insert_fresh (st : ServiceState) (hinv : Inv st) (nt : Task)
    (htitle : TitleOK nt) :
    Inv (ServiceState.mk (storeSet st.taskStore (natToStr st.nextId) nt)
      (st.nextId + 1)) := by
  obtain ⟨hnodup, hnid, hkeys, htitles⟩ := hinv
  have hfresh : natToStr st.nextId ∉ storeKeys st.taskStore := fun hmem =>
    (keyOK_fresh hnid (hkeys _ hmem)) rfl
  have hhas : storeHas st.taskStore (natToStr st.nextId) = false :=
    (storeHas_false_iff _ _).mpr hfresh
  refine ⟨?_, by show 4 ≤ st.nextId + 1; omega, ?_, ?_⟩
  · show (storeKeys (storeSet st.taskStore (natToStr st.nextId) nt)).Nodup
    rw [storeKeys_set_of_not _ _ _ hhas, List.nodup_append]
    refine ⟨hnodup, List.nodup_singleton _, ?_⟩
    intro a ha hb
    rw [List.mem_singleton] at hb
    exact hfresh (hb ▸ ha)
  · intro k hk
    replace hk : k ∈ storeKeys (storeSet st.taskStore (natToStr st.nextId) nt) := hk
    rw [storeKeys_set_of_not _ _ _ hhas] at hk
    show KeyOK (st.nextId + 1) k
    rcases List.mem_append.mp hk with h | h
    · exact keyOK_mono (by omega) (hkeys k h)
    · rw [List.mem_singleton] at h
      exact Or.inr (Or.inr (Or.inr ⟨st.nextId, hnid, by omega, h⟩))
  · intro p hp
    rcases mem_storeSet _ _ _ _ hp with h | h
    · exact htitles p h
    · rw [h]
      exact htitle

theorem inv_create (st : ServiceState) (hinv : Inv st) (data : CreateData) (clock : Nat) :
    Inv (createTask st data Option.none Option.none Option.none clock).2 := by
  obtain ⟨hnodup, hnid, hkeys, htitles⟩ := hinv
  unfold createTask
  by_cases h1 : data.title = [] ∨ trimStr data.title = []
  · rw [if_pos h1]
    exact ⟨hnodup, hnid, hkeys, htitles⟩
  · rw [if_neg h1]
    by_cases h2 : data.priority ∉ TASK_PRIORITIES
    · rw [if_pos h2]
      exact ⟨hnodup, hnid, hkeys, htitles⟩
    · rw [if_neg h2]
      show Inv (ServiceState.mk (storeSet st.taskStore (natToStr st.nextId)
        (Task.mk (natToStr st.nextId) (trimStr data.title) data.description
          data.priority false clock)) (st.nextId + 1))
      push_neg at h1
      exact inv_insert_fresh st ⟨hnodup, hnid, hkeys, htitles⟩ _
        ⟨h1.2, trimStr_idem data.title⟩

theorem inv_update (st : ServiceState) (hinv : Inv st) (id : Str) (data : UpdateData) :
    Inv (updateTask st id data).2 := by
  obtain ⟨hnodup, hnid, hkeys, htitles⟩ := hinv
  unfold updateTask
  cases hget : storeGet st.taskStore id with
  | none => exact ⟨hnodup, hnid, hkeys, htitles⟩
  | some task =>
    obtain ⟨p0, hp0, hp0t⟩ := storeGet_mem _ _ _ hget
    have hhas : storeHas st.taskStore id = true := storeHas_of_get _ _ _ hget
    have hkeyseq := storeKeys_set_of_has st.taskStore id
    have hbase : ∀ u : Task, TitleOK u →
        Inv { st with taskStore := storeSet st.taskStore id u } := by
      intro u hu
      refine ⟨by rw [hkeyseq u hhas]; exact hnodup, hnid, ?_, ?_⟩
      · intro k hk
        rw [hkeyseq u hhas] at hk
        exact hkeys k hk
      · intro p hp
        rcases mem_storeSet _ _ _ _ hp with h | h
        · exact htitles p h
        · rw [h]
          exact hu
    cases hdt : data.title with
    | some t =>
      by_cases htr : trimStr t = []
      · simp only [htr, decide_True]
        exact ⟨hnodup, hnid, hkeys, htitles⟩
      · simp only [htr, decide_False]
        cases hdp : data.priority with
        | some pr =>
          by_cases hpr : pr ∉ TASK_PRIORITIES
          · simp only [hpr, decide_True]
            exact ⟨hnodup, hnid, hkeys, htitles⟩
          · simp only [hpr, decide_False]
            exact hbase _ ⟨htr, trimStr_idem t⟩
        | none =>
          simp only []
          exact hbase _ ⟨htr, trimStr_idem t⟩
    | none =>
      cases hdp : data.priority with
      | some pr =>
        by_cases hpr : pr ∉ TASK_PRIORITIES
        · simp only [hpr, decide_True]
          exact ⟨hnodup, hnid, hkeys, htitles⟩
        · simp only [hpr, decide_False]
          exact hbase _ (hp0t ▸ htitles p0 hp0)
      | none =>
        simp only []
        exact hbase _ (hp0t ▸ htitles p0 hp0)

theorem inv_toggle (st : ServiceState) (hinv : Inv st) (id : Str) :
    Inv (toggleTaskCompletion st id).2 := by
  obtain ⟨hnodup, hnid, hkeys, htitles⟩ := hinv
  unfold toggleTaskCompletion
  cases hget : storeGet st.taskStore id with
  | none => exact ⟨hnodup, hnid, hkeys, htitles⟩
  | some task =>
    obtain ⟨p0, hp0, hp0t⟩ := storeGet_mem _ _ _ hget
    have hhas : storeHas st.taskStore id = true := storeHas_of_get _ _ _ hget
    refine ⟨by rw [storeKeys_set_of_has _ _ _ hhas]; exact hnodup, hnid, ?_, ?_⟩
    · intro k hk
      rw [storeKeys_set_of_has _ _ _ hhas] at hk
      exact hkeys k hk
    · intro p hp
      rcases mem_storeSet _ _ _ _ hp with h | h
      · exact htitles p h
      · rw [h]
        exact hp0t ▸ htitles p0 hp0

theorem inv_delete (st : ServiceState) (hinv : Inv st) (id : Str) :
    Inv (deleteTask st id).2 := by
  obtain ⟨hnodup, hnid, hkeys, htitles⟩ := hinv
  refine ⟨(storeKeys_delete_sublist st.taskStore id).nodup hnodup, hnid, ?_, ?_⟩
  · intro k hk
    exact hkeys k ((storeKeys_delete_sublist st.taskStore id).subset hk)
  · intro p hp
    exact htitles p (mem_storeDelete _ _ _ hp)

theorem reachable_inv {now : Nat} {st : ServiceState} (h : Reachable now st) : Inv st := by
  induction h with
  | init => exact inv_init now
  | create st data clock _ ih => exact inv_create st ih data clock
  | update st id data _ ih => exact inv_update st ih id data
  | toggle st id _ ih => exact inv_toggle st ih id
  | delete st id _ ih => exact inv_delete st ih id

/-- C3: in every reachable state the repository holds exactly one task per
id (its key list is duplicate-free), the allocation counter is at least 4
(it starts after the three seeded records and never decreases), and any
successful externally-invoked create assigns the counter value as id — an
id distinct from every id already in the store, including the seed ids —
stores the task under it, and bumps the counter by one. -/
theorem claim_c3_id_allocation (now : Nat) (st : ServiceState) (h : Reachable now st) :
    (storeKeys st.taskStore).Nodup ∧ 4 ≤ st.nextId ∧
    ∀ data clock task st',
      createTask st data Option.none Option.none Option.none clock = (Except.ok task, st') →
      task.id = natToStr st.nextId ∧ task.id ∉ storeKeys st.taskStore ∧
      st'.nextId = st.nextId + 1 ∧ storeGet st'.taskStore task.id = some task := by
  obtain ⟨hnodup, hnid, hkeys, _⟩ := reachable_inv h
  refine ⟨hnodup, hnid, ?_⟩
  intro data clock task st' hcreate
  unfold createTask at hcreate
  by_cases h1 : data.title = [] ∨ trimStr data.title = []
  · rw [if_pos h1] at hcreate
    simp at hcreate
  · rw [if_neg h1] at hcreate
    by_cases h2 : data.priority ∉ TASK_PRIORITIES
    · rw [if_pos h2] at hcreate
      simp at hcreate
    · rw [if_neg h2] at hcreate
      have hfresh : natToStr st.nextId ∉ storeKeys st.taskStore := fun hmem =>
        (keyOK_fresh hnid (hkeys _ hmem)) rfl
      replace hcreate :
          (Except.ok (Task.mk (natToStr st.nextId) (trimStr data.title) data.description
              data.priority false clock),
            ServiceState.mk (storeSet st.taskStore (natToStr st.nextId)
              (Task.mk (natToStr st.nextId) (trimStr data.title) data.description
                data.priority false clock)) (st.nextId + 1)) =
          ((Except.ok task : Except Str Task), st') := hcreate
      injection hcreate with ha hb
      injection ha with ha
      subst hb
      rw [← ha]
      exact ⟨rfl, hfresh, rfl, storeGet_set_self _ _ _⟩

/-- Witness for C3: the first create after seeding gets id `natToStr 4`,
fresh for the store, and is stored under it. -/
theorem claim_c3_witness :
    natToStr 4 ∉ storeKeys (initState 0).taskStore ∧
    storeGet (createTask (initState 0)
        { title := strL "Buy milk", description := [], priority := strL "low" }
        Option.none Option.none Option.none 7).2.taskStore (natToStr 4) =
      some { id := natToStr 4, title := strL "Buy milk", description := [],
             priority := strL "low", completed := false, createdAt := 7 } := by
  have happ := (claim_c3_id_allocation 0 (initState 0) Reachable.init).2.2
    { title := strL "Buy milk", description := [], priority := strL "low" } 7
    { id := natToStr 4, title := strL "Buy milk", description := [],
      priority := strL "low", completed := false, createdAt := 7 }
    (createTask (initState 0)
      { title := strL "Buy milk", description := [], priority := strL "low" }
      Option.none Option.none Option.none 7).2
    rfl
  exact ⟨happ.2.1, happ.2.2.2⟩

/-- C7: in every reachable state every stored task title is non-empty,
trimmed, and not all-whitespace; `createTask` rejects (with a validation
error, leaving the state unchanged) any title empty after trimming, and
`updateTask` likewise rejects a supplied title empty after trimming when
the id is present. -/
theorem claim_c7_title_invariant (now : Nat) (st : ServiceState) (h : Reachable now st) :
    (∀ p ∈ st.taskStore, p.2.title ≠ [] ∧ trimStr p.2.title = p.2.title ∧
      p.2.title.all isWsChar = false) ∧
    (∀ data id c t clock, trimStr data.title = [] →
      createTask st data id c t clock = (Except.error titleRequiredMsg, st)) ∧
    (∀ id data ttl task, storeGet st.taskStore id = some task → data.title = some ttl →
      trimStr ttl = [] → updateTask st id data = (Except.error titleEmptyMsg, st)) := by
  obtain ⟨_, _, _, htitles⟩ := reachable_inv h
  refine ⟨?_, ?_, ?_⟩
  · intro p hp
    obtain ⟨hne, htrim⟩ := htitles p hp
    exact ⟨hne, htrim, trimmed_not_allWs _ hne htrim⟩
  · intro data id c t clock htrim
    unfold createTask
    rw [if_pos (Or.inr htrim)]
  · intro id data ttl task hget hdt htrim
    unfold updateTask
    rw [hget, hdt]
    simp only [htrim, decide_True]
    rfl

/-- Witness for C7 at the seeded store: a seeded title is well-formed and a
whitespace-only create is rejected without a state change. -/
theorem claim_c7_witness :
    (strL "Complete the project setup" ≠ [] ∧
     trimStr (strL "Complete the project setup") = strL "Complete the project setup" ∧
     (strL "Complete the project setup").all isWsChar = false) ∧
    createTask (initState 0)
        { title := strL "   ", description := [], priority := strL "low" }
        Option.none Option.none Option.none 3 = (Except.error titleRequiredMsg, initState 0) := by
  have h := claim_c7_title_invariant 0 (initState 0) Reachable.init
  refine ⟨?_, h.2.1 _ _ _ _ _ (by decide)⟩
  exact h.1 (strL "1", Task.mk (strL "1") (strL "Complete the project setup")
      (strL "Initial setup for the Shoelace and HTMX demo") (strL "medium") false 0)
    (by rw [initState_eq]; exact List.mem_cons_self _ _)

-- Infix machinery for the HTML-injection claim: an occurrence of a pattern
-- in a concatenation lies in the left part, in the right part, or straddles
-- the boundary.

theorem infix_append_cases {p a b : Str} (h : p <:+: a ++ b) :
    p <:+: a ∨ p <:+: b ∨
      ∃ s t, s ++ t = p ∧ s ≠ [] ∧ t ≠ [] ∧ s <:+ a ∧ t <+: b := by
  obtain ⟨u, v, huv⟩ := h
  rw [List.append_assoc] at huv
  rcases List.append_eq_append_iff.mp huv with ⟨w, hw1, hw2⟩ | ⟨w, hw1, hw2⟩
  · rcases List.append_eq_append_iff.mp hw2 with ⟨x, hx1, hx2⟩ | ⟨x, hx1, hx2⟩
    · refine Or.inl ⟨u, x, ?_⟩
      rw [hw1, hx1, List.append_assoc]
    · by_cases hw : w = []
      · subst hw
        refine Or.inr (Or.inl ?_)
        rw [List.nil_append] at hx1
        exact ( List.IsPrefix.isInfix ⟨v, by rw [hx1, hx2]⟩)
      · by_cases hx : x = []
        · subst hx
          refine Or.inl ?_
          rw [List.append_nil] at hx1
          exact List.IsSuffix.isInfix (by rw [hx1]; exact ⟨u, hw1.symm⟩)
        · exact Or.inr (Or.inr ⟨w, x, hx1.symm, hw, hx, ⟨u, hw1.symm⟩, ⟨v, hx2.symm⟩⟩)
  · exact Or.inr (Or.inl ⟨w, v, by rw [hw2, List.append_assoc]⟩)

theorem scSafe_append {a b : Str} (ha : ScSafe a) (hb : ¬ (strL "<sc") <:+: b) :
    ¬ (strL "<sc") <:+: a ++ b := by
  intro h
  rcases infix_append_cases h with h1 | h1 | ⟨s, t, hst, hs, ht, hsuf, hpre⟩
  · exact ha.1 h1
  · exact hb h1
  · rcases s with _ | ⟨c1, s1⟩
    · exact hs rfl
    rcases s1 with _ | ⟨c2, s2⟩
    · obtain ⟨hc1, -⟩ : c1 = Char.ofNat 60 ∧ t = strL "sc" := by
        have h' : c1 :: t = strL "<sc" := hst
        exact ⟨(List.cons.injEq .. ▸ h').1, (List.cons.injEq .. ▸ h').2⟩
      subst hc1
      exact ha.2.1 hsuf
    rcases s2 with _ | ⟨c3, s3⟩
    · obtain ⟨hc1, hrest⟩ : c1 = Char.ofNat 60 ∧ c2 :: t = strL "sc" := by
        have h' : c1 :: c2 :: t = strL "<sc" := hst
        exact ⟨(List.cons.injEq .. ▸ h').1, (List.cons.injEq .. ▸ h').2⟩
      obtain ⟨hc2, -⟩ : c2 = Char.ofNat 115 ∧ t = strL "c" :=
        ⟨(List.cons.injEq .. ▸ hrest).1, (List.cons.injEq .. ▸ hrest).2⟩
      subst hc1
      subst hc2
      exact ha.2.2 hsuf
    · have hlen := congrArg List.length hst
      simp only [List.length_append, List.length_cons] at hlen
      have hnil : t = [] := List.length_eq_zero.mp (by
        have h3 : (strL "<sc").length = 3 := rfl
        omega)
      exact ht hnil

theorem scSafe_of_no_lt {l : Str} (h : Char.ofNat 60 ∉ l) : ScSafe l := by
  refine ⟨fun hc => h (hc.sublist.subset (by decide)),
          fun hc => h (hc.sublist.subset (by decide)),
          fun hc => h (hc.sublist.subset (by decide))⟩

theorem scSafe_ite (c : Prop) [Decidable c] (x y : Str) (hx : ScSafe x) (hy : ScSafe y) :
    ScSafe (if c then x else y) := by
  by_cases h : c
  · rw [if_pos h]
    exact hx
  · rw [if_neg h]
    exact hy

theorem htmlEscape_no_lt (s : Str) : Char.ofNat 60 ∉ htmlEscape s := by
  intro h
  unfold htmlEscape at h
  rw [List.mem_flatMap] at h
  obtain ⟨c, hc, hmem⟩ := h
  split_ifs at hmem with h1 h2 h3 h4 h5
  · exact absurd hmem (by decide)
  · exact absurd hmem (by decide)
  · exact absurd hmem (by decide)
  · exact absurd hmem (by decide)
  · exact absurd hmem (by decide)
  · exact h2 ((List.mem_singleton.mp hmem).symm ▸ rfl)

theorem htmlEscape_no_gt (s : Str) : Char.ofNat 62 ∉ htmlEscape s := by
  intro h
  unfold htmlEscape at h
  rw [List.mem_flatMap] at h
  obtain ⟨c, hc, hmem⟩ := h
  split_ifs at hmem with h1 h2 h3 h4 h5
  · exact absurd hmem (by decide)
  · exact absurd hmem (by decide)
  · exact absurd hmem (by decide)
  · exact absurd hmem (by decide)
  · exact absurd hmem (by decide)
  · exact h3 ((List.mem_singleton.mp hmem).symm ▸ rfl)

theorem htmlEscape_no_quot (s : Str) : Char.ofNat 34 ∉ htmlEscape s := by
  intro h
  unfold htmlEscape at h
  rw [List.mem_flatMap] at h
  obtain ⟨c, hc, hmem⟩ := h
  split_ifs at hmem with h1 h2 h3 h4 h5
  · exact absurd hmem (by decide)
  · exact absurd hmem (by decide)
  · exact absurd hmem (by decide)
  · exact absurd hmem (by decide)
  · exact absurd hmem (by decide)
  · exact h4 (by rw [← List.mem_singleton.mp hmem]; decide)

set_option maxRecDepth 40000 in
/-- C1: the fragment renderer escapes every user-supplied string: the
escaped interpolations contain no raw angle brackets or double quote, and
for every task — in particular one whose title is
`<script>alert(1)</script>` — the literal substring `<script>` does not
occur anywhere in the rendered task fragment. -/
theorem claim_c1_renderer_escapes :
    (∀ s : Str, Char.ofNat 60 ∉ htmlEscape s ∧ Char.ofNat 62 ∉ htmlEscape s ∧
      Char.ofNat 34 ∉ htmlEscape s) ∧
    ∀ task : Task, ¬ (strL "<script>") <:+: taskToHtml task := by
  have hesc : ∀ s : Str, ScSafe (htmlEscape s) := fun s => scSafe_of_no_lt (htmlEscape_no_lt s)
  refine ⟨fun s => ⟨htmlEscape_no_lt s, htmlEscape_no_gt s, htmlEscape_no_quot s⟩, ?_⟩
  intro task h
  have hsc : (strL "<sc") <:+: taskToHtml task :=
    List.IsInfix.trans ( List.IsPrefix.isInfix (by decide)) h
  revert hsc
  simp only [taskToHtml, List.append_assoc]
  refine scSafe_append (by decide) ?_
  refine scSafe_append (hesc _) ?_
  refine scSafe_append (by decide) ?_
  refine scSafe_append (scSafe_ite _ _ _ (by decide) (by decide)) ?_
  refine scSafe_append (by decide) ?_
  refine scSafe_append (hesc _) ?_
  refine scSafe_append (by decide) ?_
  refine scSafe_append (hesc _) ?_
  refine scSafe_append (by decide) ?_
  refine scSafe_append (scSafe_ite _ _ _ (by decide) (by decide)) ?_
  refine scSafe_append (by decide) ?_
  refine scSafe_append (hesc _) ?_
  refine scSafe_append (by decide) ?_
  refine scSafe_append (hesc _) ?_
  refine scSafe_append (by decide) ?_
  refine scSafe_append (scSafe_ite _ _ _ (by decide) (scSafe_ite _ _ _ (by decide) (by decide))) ?_
  refine scSafe_append (by decide) ?_
  refine scSafe_append (hesc _) ?_
  refine scSafe_append (by decide) ?_
  refine scSafe_append (hesc _) ?_
  refine scSafe_append (by decide) ?_
  refine scSafe_append (hesc _) ?_
  refine scSafe_append (by decide) ?_
  refine scSafe_append (hesc _) ?_
  refine scSafe_append (by decide) ?_
  refine scSafe_append (hesc _) ?_
  decide

/-- Witness for C1: the fragment for a task whose title is the script
payload does not contain the literal `<script>`. -/
theorem claim_c1_witness :
    ¬ (strL "<script>") <:+: taskToHtml
      { id := strL "4", title := strL "<script>alert(1)</script>",
        description := [], priority := strL "low", completed := false, createdAt := 0 } :=
  claim_c1_renderer_escapes.2 _

-- Path-splitting lemmas for the routing claims.

theorem splitSlash_of_no_slash (l : Str) (h : Char.ofNat 47 ∉ l) : splitSlash l = [l] := by
  induction l with
  | nil => rfl
  | cons c r ih =>
    have hc : ¬ (c = Char.ofNat 47) := fun hh => h (hh ▸ List.mem_cons_self c r)
    have hr : Char.ofNat 47 ∉ r := fun hh => h (List.mem_cons_of_mem c hh)
    rw [splitSlash]
    rw [if_neg (by exact hc)]
    rw [ih hr]

theorem no_slash_of_word (id : Str) (hw : id.all isWordChar = true) :
    Char.ofNat 47 ∉ id := by
  intro hmem
  have := List.all_eq_true.mp hw _ hmem
  exact absurd this (by decide)

theorem splitSlash_ne_nil (l : Str) : splitSlash l ≠ [] := by
  cases l with
  | nil => exact fun h => List.cons_ne_nil _ _ h
  | cons c r =>
    rw [splitSlash]
    by_cases hc : c = Char.ofNat 47
    · rw [if_pos hc]
      exact List.cons_ne_nil _ _
    · rw [if_neg hc]
      cases splitSlash r with
      | nil => exact List.cons_ne_nil _ _
      | cons h t => exact List.cons_ne_nil _ _

theorem splitSlash_append_slash (id rest : Str) (h : Char.ofNat 47 ∉ id) :
    splitSlash (id ++ Char.ofNat 47 :: rest) = id :: splitSlash rest := by
  induction id with
  | nil =>
    rw [List.nil_append, splitSlash, if_pos rfl]
  | cons c r ih =>
    have hc : ¬ (c = Char.ofNat 47) := fun hh => h (hh ▸ List.mem_cons_self c r)
    have hr : Char.ofNat 47 ∉ r := fun hh => h (List.mem_cons_of_mem c hh)
    rw [List.cons_append, splitSlash, if_neg hc, ih hr]

theorem splitSlash_api_pre (X : Str) (hd : Str) (tl : List Str)
    (hx : splitSlash X = hd :: tl) :
    splitSlash (strL "/api/tasks/" ++ X) =
      [] :: strL "api" :: strL "tasks" :: hd :: tl := by
  have h0 : splitSlash (strL "/api/tasks/" ++ X) =
      [] :: splitSlash (strL "api" ++ Char.ofNat 47 ::
        (strL "tasks" ++ Char.ofNat 47 :: X)) := rfl
  rw [h0,
    splitSlash_append_slash (strL "api") (strL "tasks" ++ Char.ofNat 47 :: X) (by decide),
    splitSlash_append_slash (strL "tasks") X (by decide), hx]

theorem drop11_api_tasks (X : Str) :
    ((strL "/api/tasks/" : Str) ++ X).drop 11 = X := by
  have h11 : (11 : Nat) = (strL "/api/tasks/" : Str).length := rfl
  rw [h11, List.drop_left]

theorem matchTaskIdPath_true (id : Str) (hid : id ≠ []) (hw : id.all isWordChar = true) :
    matchTaskIdPath (strL "/api/tasks/" ++ id) = true := by
  unfold matchTaskIdPath
  have h1 : (strL "/api/tasks/").isPrefixOf ((strL "/api/tasks/" : Str) ++ id) = true :=
    List.isPrefixOf_iff_prefix.mpr ⟨id, rfl⟩
  rw [h1, drop11_api_tasks]
  simp [hid, hw]

theorem path_ne_api_tasks (id : Str) (hid : id ≠ []) :
    (strL "/api/tasks/" : Str) ++ id ≠ strL "/api/tasks" := by
  intro h
  have hlen := congrArg List.length h
  rw [List.length_append] at hlen
  have h1 : (strL "/api/tasks/" : Str).length = 11 := rfl
  have h2 : (strL "/api/tasks" : Str).length = 10 := rfl
  have h3 : id.length ≠ 0 := fun hz => hid (List.length_eq_zero.mp hz)
  omega

theorem paramId_api_tasks_id (id : Str) (h : Char.ofNat 47 ∉ id) :
    paramId (strL "/api/tasks/:id") (strL "/api/tasks/" ++ id) = id := by
  simp only [paramId, getPathParams]
  rw [splitSlash_api_pre id id [] (splitSlash_of_no_slash id h)]
  rfl

theorem matchTaskIdPath_false_of_not_word (X : Str) (hw : X.all isWordChar = false) :
    matchTaskIdPath (strL "/api/tasks/" ++ X) = false := by
  unfold matchTaskIdPath
  rw [drop11_api_tasks, hw]
  simp

theorem matchTaskSubPath_true_edit (id : Str) (hid : id ≠ []) (hw : id.all isWordChar = true) :
    matchTaskSubPath (strL "/edit") (strL "/api/tasks/" ++ (id ++ strL "/edit")) = true := by
  unfold matchTaskSubPath
  rw [drop11_api_tasks]
  have hpre : (strL "/api/tasks/").isPrefixOf
      ((strL "/api/tasks/" : Str) ++ (id ++ strL "/edit")) = true :=
    List.isPrefixOf_iff_prefix.mpr ⟨id ++ strL "/edit", rfl⟩
  have hsuf : (strL "/edit").isSuffixOf (id ++ strL "/edit") = true :=
    List.isSuffixOf_iff_suffix.mpr ⟨id, rfl⟩
  have hlen : (id ++ (strL "/edit" : Str)).length - (strL "/edit" : Str).length = id.length := by
    rw [List.length_append]
    omega
  have htake : (id ++ (strL "/edit" : Str)).take
      ((id ++ (strL "/edit" : Str)).length - (strL "/edit" : Str).length) = id := by
    rw [hlen, List.take_left]
  simp [hpre, hsuf, htake, hid, hw]

theorem matchTaskSubPath_true_toggle (id : Str) (hid : id ≠ []) (hw : id.all isWordChar = true) :
    matchTaskSubPath (strL "/toggle") (strL "/api/tasks/" ++ (id ++ strL "/toggle")) = true := by
  unfold matchTaskSubPath
  rw [drop11_api_tasks]
  have hpre : (strL "/api/tasks/").isPrefixOf
      ((strL "/api/tasks/" : Str) ++ (id ++ strL "/toggle")) = true :=
    List.isPrefixOf_iff_prefix.mpr ⟨id ++ strL "/toggle", rfl⟩
  have hsuf : (strL "/toggle").isSuffixOf (id ++ strL "/toggle") = true :=
    List.isSuffixOf_iff_suffix.mpr ⟨id, rfl⟩
  have hlen : (id ++ (strL "/toggle" : Str)).length - (strL "/toggle" : Str).length = id.length := by
    rw [List.length_append]
    omega
  have htake : (id ++ (strL "/toggle" : Str)).take
      ((id ++ (strL "/toggle" : Str)).length - (strL "/toggle" : Str).length) = id := by
    rw [hlen, List.take_left]
  simp [hpre, hsuf, htake, hid, hw]

theorem edit_not_suffixOf_toggle (id : Str) :
    (strL "/edit").isSuffixOf (id ++ strL "/toggle") = false := by
  cases hsuf : (strL "/edit").isSuffixOf (id ++ strL "/toggle") with
  | false => rfl
  | true =>
    obtain ⟨u, hu⟩ := List.isSuffixOf_iff_suffix.mp hsuf
    have hrev := congrArg List.reverse hu
    rw [List.reverse_append, List.reverse_append] at hrev
    have hh := congrArg List.head? hrev
    rw [show (((strL "/edit" : Str)).reverse ++ u.reverse).head? = some (Char.ofNat 116) from rfl,
        show (((strL "/toggle" : Str)).reverse ++ id.reverse).head? = some (Char.ofNat 101) from rfl] at hh
    exact absurd hh (by decide)

theorem matchTaskSubPath_false_no_slash (lit : Str) (hlit : Char.ofNat 47 ∈ lit)
    (X : Str) (hX : Char.ofNat 47 ∉ X) :
    matchTaskSubPath lit (strL "/api/tasks/" ++ X) = false := by
  unfold matchTaskSubPath
  rw [drop11_api_tasks]
  have hsuf : lit.isSuffixOf X = false := by
    cases hs : lit.isSuffixOf X with
    | false => rfl
    | true =>
      have := (List.isSuffixOf_iff_suffix.mp hs).sublist.subset hlit
      exact absurd this hX
  simp [hsuf]

theorem paramId_api_tasks_edit (id : Str) (h : Char.ofNat 47 ∉ id) :
    paramId (strL "/api/tasks/:id/edit") (strL "/api/tasks/" ++ (id ++ strL "/edit")) = id := by
  simp only [paramId, getPathParams]
  have hx : splitSlash (id ++ (strL "/edit" : Str)) = id :: [strL "edit"] := by
    rw [show (id ++ (strL "/edit" : Str)) = id ++ Char.ofNat 47 :: strL "edit" from rfl,
        splitSlash_append_slash id _ h]
    rfl
  rw [splitSlash_api_pre _ id [strL "edit"] hx]
  rfl

theorem paramId_api_tasks_toggle (id : Str) (h : Char.ofNat 47 ∉ id) :
    paramId (strL "/api/tasks/:id/toggle") (strL "/api/tasks/" ++ (id ++ strL "/toggle")) = id := by
  simp only [paramId, getPathParams]
  have hx : splitSlash (id ++ (strL "/toggle" : Str)) = id :: [strL "toggle"] := by
    rw [show (id ++ (strL "/toggle" : Str)) = id ++ Char.ofNat 47 :: strL "toggle" from rfl,
        splitSlash_append_slash id _ h]
    rfl
  rw [splitSlash_api_pre _ id [strL "toggle"] hx]
  rfl

/-- C2 counterexample: the id `abc-def` is a non-slash token, yet
`GET /api/tasks/abc-def` falls through to the JSON route-not-found
response instead of being dispatched to the task handler. -/
theorem claim_c2_counterexample :
    (handleApiRequest demoState (strL "GET") (strL "/api/tasks/abc-def")
        Option.none Option.none 0).1 = jsonErrorResponse apiNotFoundMsg 404 ∧
    (handleApiRequest demoState (strL "GET") (strL "/api/tasks/abc-def")
        Option.none Option.none 0).1 ≠ (getTaskByIdHandler demoState (strL "abc-def")).1 := by
  constructor
  · rfl
  · decide

/-- C2 (amended): the identifier segment of the task routes matches exactly
the nonempty word-character tokens (JS `\w+`, i.e. `[A-Za-z0-9_]+`) —
broader than digits-only: such ids are dispatched to the corresponding task
handler for GET, PUT, DELETE and the `/edit` and `/toggle` variants, while
a slash-free id containing any non-word character falls through to the JSON
route-not-found response. -/
theorem claim_c2_word_matching (st : ServiceState) (id : Str) (q : Option Str)
    (f : Option Form) (now : Nat) (hid : id ≠ []) (hw : id.all isWordChar = true) :
    (handleApiRequest st (strL "GET") (strL "/api/tasks/" ++ id) q f now =
       getTaskByIdHandler st id) ∧
    (handleApiRequest st (strL "PUT") (strL "/api/tasks/" ++ id) q f now =
       updateTaskHandler st id f) ∧
    (handleApiRequest st (strL "DELETE") (strL "/api/tasks/" ++ id) q f now =
       deleteTaskHandler st id) ∧
    (handleApiRequest st (strL "GET") (strL "/api/tasks/" ++ (id ++ strL "/edit")) q f now =
       getTaskEditFormHandler st id) ∧
    (handleApiRequest st (strL "PUT") (strL "/api/tasks/" ++ (id ++ strL "/toggle")) q f now =
       toggleTaskHandler st id) ∧
    (∀ method id', id' ≠ [] → Char.ofNat 47 ∉ id' → id'.all isWordChar = false →
       handleApiRequest st method (strL "/api/tasks/" ++ id') q f now =
         (jsonErrorResponse apiNotFoundMsg 404, st)) := by
  have hslash : Char.ofNat 47 ∉ id := no_slash_of_word id hw
  have hmatch := matchTaskIdPath_true id hid hw
  have hparam := paramId_api_tasks_id id hslash
  have hedid : (id ++ (strL "/edit" : Str)) ≠ [] := by
    intro hh
    exact hid (List.append_eq_nil.mp hh).1
  have htgid : (id ++ (strL "/toggle" : Str)) ≠ [] := by
    intro hh
    exact hid (List.append_eq_nil.mp hh).1
  have hedw : (id ++ (strL "/edit" : Str)).all isWordChar = false :=
    List.all_eq_false.mpr ⟨Char.ofNat 47, List.mem_append_right id (by decide), by decide⟩
  have htgw : (id ++ (strL "/toggle" : Str)).all isWordChar = false :=
    List.all_eq_false.mpr ⟨Char.ofNat 47, List.mem_append_right id (by decide), by decide⟩
  refine ⟨?_, ?_, ?_, ?_, ?_, ?_⟩
  · unfold handleApiRequest
    rw [if_neg (fun hc => path_ne_api_tasks id hid hc.1),
        if_neg (fun hc => path_ne_api_tasks id hid hc.1),
        if_pos ⟨hmatch, rfl⟩, hparam]
  · unfold handleApiRequest
    rw [if_neg (fun hc => path_ne_api_tasks id hid hc.1),
        if_neg (fun hc => path_ne_api_tasks id hid hc.1),
        if_neg (fun hc => absurd hc.2 (by decide)),
        if_pos ⟨hmatch, rfl⟩, hparam]
  · unfold handleApiRequest
    rw [if_neg (fun hc => path_ne_api_tasks id hid hc.1),
        if_neg (fun hc => path_ne_api_tasks id hid hc.1),
        if_neg (fun hc => absurd hc.2 (by decide)),
        if_neg (fun hc => absurd hc.2 (by decide)),
        if_pos ⟨hmatch, rfl⟩, hparam]
  · unfold handleApiRequest
    rw [if_neg (fun hc => path_ne_api_tasks _ hedid hc.1),
        if_neg (fun hc => path_ne_api_tasks _ hedid hc.1),
        if_neg (fun hc => absurd ((matchTaskIdPath_false_of_not_word _ hedw) ▸ hc.1)
          (by decide)),
        if_neg (fun hc => absurd hc.2 (by decide)),
        if_neg (fun hc => absurd hc.2 (by decide)),
        if_pos ⟨matchTaskSubPath_true_edit id hid hw, rfl⟩,
        paramId_api_tasks_edit id hslash]
  · unfold handleApiRequest
    rw [if_neg (fun hc => path_ne_api_tasks _ htgid hc.1),
        if_neg (fun hc => path_ne_api_tasks _ htgid hc.1),
        if_neg (fun hc => absurd hc.2 (by decide)),
        if_neg (fun hc => absurd ((matchTaskIdPath_false_of_not_word _ htgw) ▸ hc.1)
          (by decide)),
        if_neg (fun hc => absurd hc.2 (by decide)),
        if_neg (fun hc => absurd ((show matchTaskSubPath (strL "/edit")
            (strL "/api/tasks/" ++ (id ++ strL "/toggle")) = false by
          unfold matchTaskSubPath
          rw [drop11_api_tasks]
          simp [edit_not_suffixOf_toggle id]) ▸ hc.1) (by decide)),
        if_pos ⟨matchTaskSubPath_true_toggle id hid hw, rfl⟩,
        paramId_api_tasks_toggle id hslash]
  · intro method id' hid' hsl' hw'
    unfold handleApiRequest
    rw [if_neg (fun hc => path_ne_api_tasks _ hid' hc.1),
        if_neg (fun hc => path_ne_api_tasks _ hid' hc.1),
        if_neg (fun hc => absurd ((matchTaskIdPath_false_of_not_word _ hw') ▸ hc.1)
          (by decide)),
        if_neg (fun hc => absurd ((matchTaskIdPath_false_of_not_word _ hw') ▸ hc.1)
          (by decide)),
        if_neg (fun hc => absurd ((matchTaskIdPath_false_of_not_word _ hw') ▸ hc.1)
          (by decide)),
        if_neg (fun hc => absurd
          ((matchTaskSubPath_false_no_slash (strL "/edit") (by decide) id' hsl') ▸ hc.1)
          (by decide)),
        if_neg (fun hc => absurd
          ((matchTaskSubPath_false_no_slash (strL "/toggle") (by decide) id' hsl') ▸ hc.1)
          (by decide))]

/-- Witness for the amended C2: the non-numeric word id `abc` is dispatched
to the task handler. -/
theorem claim_c2_witness :
    handleApiRequest demoState (strL "GET") (strL "/api/tasks/abc")
        Option.none Option.none 0 = getTaskByIdHandler demoState (strL "abc") :=
  (claim_c2_word_matching demoState (strL "abc") Option.none Option.none 0
    (by decide) (by decide)).1

-- Response-body classification of each API handler, for the error-envelope
-- claim.

theorem getTasksHandler_html (st : ServiceState) (q : Option Str) :
    ∃ b, (getTasksHandler st q).1.body = Body.html b := by
  simp only [getTasksHandler]
  split
  · exact ⟨_, rfl⟩
  · exact ⟨_, rfl⟩

theorem createTaskHandler_html (st : ServiceState) (f : Option Form) (now : Nat) :
    ∃ b, (createTaskHandler st f now).1.body = Body.html b := by
  simp only [createTaskHandler]
  repeat first | exact ⟨_, rfl⟩ | split

theorem getTaskByIdHandler_html (st : ServiceState) (id : Str) :
    ∃ b, (getTaskByIdHandler st id).1.body = Body.html b := by
  simp only [getTaskByIdHandler]
  repeat first | exact ⟨_, rfl⟩ | split

theorem updateTaskHandler_html (st : ServiceState) (id : Str) (f : Option Form) :
    ∃ b, (updateTaskHandler st id f).1.body = Body.html b := by
  simp only [updateTaskHandler]
  repeat first | exact ⟨_, rfl⟩ | split

theorem getTaskEditFormHandler_html (st : ServiceState) (id : Str) :
    ∃ b, (getTaskEditFormHandler st id).1.body = Body.html b := by
  simp only [getTaskEditFormHandler]
  repeat first | exact ⟨_, rfl⟩ | split

theorem toggleTaskHandler_html (st : ServiceState) (id : Str) :
    ∃ b, (toggleTaskHandler st id).1.body = Body.html b := by
  simp only [toggleTaskHandler]
  repeat first | exact ⟨_, rfl⟩ | split

theorem deleteTaskHandler_cases (st : ServiceState) (id : Str) :
    (deleteTaskHandler st id).1 = jsonErrorResponse deleteNotFoundMsg 404 ∨
    ((deleteTaskHandler st id).1.status = 204 ∧
     (deleteTaskHandler st id).1.body = Body.none) := by
  simp only [deleteTaskHandler]
  split
  · exact Or.inr ⟨rfl, rfl⟩
  · exact Or.inl rfl

theorem c8_parts_of_html {r : Resp} (hh : ∃ b, r.body = Body.html b) :
    (∀ s, r.body = Body.json s →
       r = jsonErrorResponse apiNotFoundMsg 404 ∨
       r = jsonErrorResponse deleteNotFoundMsg 404) ∧
    (400 ≤ r.status →
       (∃ b, r.body = Body.html b) ∨ r = jsonErrorResponse apiNotFoundMsg 404 ∨
       r = jsonErrorResponse deleteNotFoundMsg 404) := by
  obtain ⟨b, hb⟩ := hh
  constructor
  · intro s hs
    rw [hb] at hs
    exact absurd hs (by simp)
  · intro _
    exact Or.inl ⟨b, hb⟩

/-- C8: the only API responses carrying the JSON error envelope are the
route-level not-found (404) and the delete-of-nonexistent-id not-found
(404); every other failure response (status ≥ 400) of the API layer has an
HTML body. -/
theorem claim_c8_json_envelopes (st : ServiceState) (method path : Str)
    (q : Option Str) (f : Option Form) (now : Nat) :
    (∀ s, (handleApiRequest st method path q f now).1.body = Body.json s →
       (handleApiRequest st method path q f now).1 = jsonErrorResponse apiNotFoundMsg 404 ∨
       (handleApiRequest st method path q f now).1 = jsonErrorResponse deleteNotFoundMsg 404) ∧
    (400 ≤ (handleApiRequest st method path q f now).1.status →
       (∃ b, (handleApiRequest st method path q f now).1.body = Body.html b) ∨
       (handleApiRequest st method path q f now).1 = jsonErrorResponse apiNotFoundMsg 404 ∨
       (handleApiRequest st method path q f now).1 = jsonErrorResponse deleteNotFoundMsg 404) := by
  unfold handleApiRequest
  split_ifs with h1 h2 h3 h4 h5 h6 h7
  · exact c8_parts_of_html (getTasksHandler_html st q)
  · exact c8_parts_of_html (createTaskHandler_html st f now)
  · exact c8_parts_of_html (getTaskByIdHandler_html st _)
  · exact c8_parts_of_html (updateTaskHandler_html st _ f)
  · rcases deleteTaskHandler_cases st (paramId (strL "/api/tasks/:id") path) with hjson | ⟨hst, hbody⟩
    · exact ⟨fun s _ => Or.inr hjson, fun _ => Or.inr (Or.inr hjson)⟩
    · constructor
      · intro s hs
        rw [hbody] at hs
        exact absurd hs (by simp)
      · intro h400
        rw [hst] at h400
        omega
  · exact c8_parts_of_html (getTaskEditFormHandler_html st _)
  · exact c8_parts_of_html (toggleTaskHandler_html st _)
  · exact ⟨fun s _ => Or.inl rfl, fun _ => Or.inr (Or.inl rfl)⟩

/-- Witness for C8: both JSON paths are hit at concrete inputs — an
unmatched method+path and a delete of a nonexistent id. -/
theorem claim_c8_witness :
    ((handleApiRequest demoState (strL "PATCH") (strL "/api/tasks") Option.none Option.none 0).1 =
        jsonErrorResponse apiNotFoundMsg 404 ∨
     (handleApiRequest demoState (strL "PATCH") (strL "/api/tasks") Option.none Option.none 0).1 =
        jsonErrorResponse deleteNotFoundMsg 404) ∧
    ((handleApiRequest demoState (strL "DELETE") (strL "/api/tasks/zzz") Option.none Option.none 0).1 =
        jsonErrorResponse apiNotFoundMsg 404 ∨
     (handleApiRequest demoState (strL "DELETE") (strL "/api/tasks/zzz") Option.none Option.none 0).1 =
        jsonErrorResponse deleteNotFoundMsg 404) :=
  ⟨(claim_c8_json_envelopes demoState (strL "PATCH") (strL "/api/tasks")
      Option.none Option.none 0).1 _ (by rfl),
   (claim_c8_json_envelopes demoState (strL "DELETE") (strL "/api/tasks/zzz")
      Option.none Option.none 0).1 _ (by rfl)⟩

end Srv
